import Mathlib

/-!
Verification of the tensor-derivation engine of DifferentialGeometry.py.

Shallow embedding conventions:
* a sympy symbolic scalar expression is an element of a field R (equality in R
  is symbolic equivalence of expressions);
* sympy.diff with respect to the i-th coordinate variable x[i] is an abstract
  family d : Nat -> R -> R (its calculus laws, additivity / Leibniz /
  commuting mixed second derivatives, are taken as hypotheses only where a
  claim needs them);
* sympy.simplify is an abstract function simplify : R -> R; claims about where
  simplification is applied are proved for every such function, and claims
  about symbolic equivalence of simplified values use the hypothesis that
  simplify is semantically the identity (in the semantic field, an expression
  and its simplification are the same element).
-/

section SymbolicTensors

variable {R : Type} [Field R]

/-- Embedding of RiemannGeometry.compute_christoffel_symbols (lines 52-68):
for each (rho, lamda, nu) the entry starts at 0, the mu-loop accumulates
inv_g[rho,mu] * (diff(g[mu,nu], x[lamda]) + diff(g[mu,lamda], x[nu])
- diff(g[nu,lamda], x[mu])) / 2, and simplify is applied once after the
mu-loop completes. -/
def christoffel_code (n : ℕ) (d : ℕ → R → R) (simplify : R → R)
    (g invg : ℕ → ℕ → R) (rho lam nu : ℕ) : R :=
  simplify ((List.range n).foldl
    (fun acc mu =>
      acc + invg rho mu * (d lam (g mu nu) + d nu (g mu lam) - d mu (g nu lam)) / 2)
    0)

/-- The spec's Christoffel formula, written as stated: one simplification of
the completed sum over mu. -/
def christoffel_spec (n : ℕ) (d : ℕ → R → R) (simplify : R → R)
    (g invg : ℕ → ℕ → R) (rho lam nu : ℕ) : R :=
  simplify (∑ mu in Finset.range n,
    invg rho mu * (d lam (g mu nu) + d nu (g mu lam) - d mu (g nu lam)) / 2)

/-- Embedding of RiemannGeometry.compute_riemann_curvature_tensor (lines
70-88): the entry starts at 0, the sigma-loop accumulates
- gamma[sigma,lamda,mu] * gamma[rho,sigma,nu]
+ gamma[sigma,lamda,nu] * gamma[rho,sigma,mu], then the two derivative terms
- diff(gamma[rho,lamda,mu], x[nu]) + diff(gamma[rho,lamda,nu], x[mu]) are
added, and simplify is applied once to the completed entry.  gam is the
already-computed Christoffel array self.christoffel_symbols. -/
def riemann_code (n : ℕ) (d : ℕ → R → R) (simplify : R → R)
    (gam : ℕ → ℕ → ℕ → R) (rho lam mu nu : ℕ) : R :=
  simplify
    (((List.range n).foldl
        (fun acc sig =>
          acc + (-(gam sig lam mu * gam rho sig nu) + gam sig lam nu * gam rho sig mu))
        0)
      + (-(d nu (gam rho lam mu)) + d mu (gam rho lam nu)))

/-- The spec's Riemann formula, written as stated: derivative terms first,
then the sigma-sum, one simplification of the full sum. -/
def riemann_spec (n : ℕ) (d : ℕ → R → R) (simplify : R → R)
    (gam : ℕ → ℕ → ℕ → R) (rho lam mu nu : ℕ) : R :=
  simplify
    (d mu (gam rho lam nu) - d nu (gam rho lam mu)
      + ∑ sig in Finset.range n,
          (gam sig lam nu * gam rho sig mu - gam sig lam mu * gam rho sig nu))

/-- Embedding of RiemannGeometry.compute_ricci_tensor (lines 90-103):
Ricci[mu,nu] accumulates riemann[lamda,mu,lamda,nu] over lamda and is
simplified once per entry. -/
def ricci_code (n : ℕ) (simplify : R → R) (riem : ℕ → ℕ → ℕ → ℕ → R)
    (mu nu : ℕ) : R :=
  simplify ((List.range n).foldl (fun acc lam => acc + riem lam mu lam nu) 0)

/-- Embedding of RiemannGeometry.compute_ricci_scalar (lines 105-118): a
single accumulator over the double (mu, nu) loop of
inv_g[mu,nu] * ricci[mu,nu], simplified once at the end. -/
def ricciScalar_code (n : ℕ) (simplify : R → R) (invg : ℕ → ℕ → R)
    (ricci : ℕ → ℕ → R) : R :=
  simplify ((List.range n).foldl
    (fun acc mu =>
      (List.range n).foldl (fun acc2 nu => acc2 + invg mu nu * ricci mu nu) acc)
    0)

/-- Embedding of ClassicalDifferentialGeometry.compute_gaussian_curvature
(lines 26-39), the Brioschi closed form; det is the determinant self.det
computed at construction, d 0 / d 1 differentiate with respect to x[0] /
x[1]. -/
def gaussian_code (d : ℕ → R → R) (simplify : R → R) (g : ℕ → ℕ → R)
    (det : R) : R :=
  let first_term :=
    (2 * d 1 (d 0 (g 0 1)) - d 1 (d 1 (g 0 0)) - d 0 (d 0 (g 1 1))) / (2 * det)
  let second_term :=
    (d 0 (g 0 0) * (2 * d 1 (g 0 1) - d 0 (g 1 1)) - (d 1 (g 0 0)) ^ 2) * g 1 1
      / (4 * det ^ 2)
  let third_term :=
    (d 0 (g 0 0) * d 1 (g 1 1) - 2 * d 1 (g 0 0) * d 0 (g 1 1)
        + (2 * d 0 (g 0 1) - d 1 (g 0 0)) * (2 * d 1 (g 0 1) - d 0 (g 1 1))) * g 0 1
      / (4 * det ^ 2)
  let forth_term :=
    (d 1 (g 1 1) * (2 * d 0 (g 0 1) - d 1 (g 0 0)) - (d 0 (g 1 1)) ^ 2) * g 0 0
      / (4 * det ^ 2)
  simplify (first_term - second_term + third_term - forth_term)

/-- A left fold that only accumulates sums over List.range is the
corresponding Finset sum. -/
lemma foldl_add_range {M : Type} [AddCommMonoid M] (f : ℕ → M) :
    ∀ (n : ℕ) (a : M),
      (List.range n).foldl (fun acc i => acc + f i) a = a + ∑ i in Finset.range n, f i := by
  intro n
  induction n with
  | zero => intro a; simp
  | succ k ih =>
      intro a
      rw [List.range_succ, List.foldl_append, ih, Finset.sum_range_succ]
      simp [add_assoc]

/-- C1: for every metric and every index triple, the Christoffel entry the
constructor computes is simplify of the completed sum over mu of
g_inverse[rho][mu] * (d g[mu][nu]/d x[lam] + d g[mu][lam]/d x[nu]
- d g[nu][lam]/d x[mu]) / 2, with simplification applied once per entry after
the mu-sum: the loop embedding equals the spec formula for every
differentiation operator and every simplification function, so in particular
for every symmetric metric with nonzero determinant. -/
theorem christoffel_code_eq_spec (n : ℕ) (d : ℕ → R → R) (simplify : R → R)
    (g invg : ℕ → ℕ → R) (rho lam nu : ℕ) :
    christoffel_code n d simplify g invg rho lam nu
      = christoffel_spec n d simplify g invg rho lam nu := by
  unfold christoffel_code christoffel_spec
  rw [foldl_add_range
    (fun mu => invg rho mu * (d lam (g mu nu) + d nu (g mu lam) - d mu (g nu lam)) / 2) n 0]
  rw [zero_add]

/-- C2: for every Christoffel array and every index quadruple, the Riemann
entry the constructor computes is simplify of
d gam[rho][lam][nu]/d x[mu] - d gam[rho][lam][mu]/d x[nu]
+ sum over sig of (gam[sig][lam][nu] * gam[rho][sig][mu]
- gam[sig][lam][mu] * gam[rho][sig][nu]), with exactly this sign convention
and one simplification per entry after the full sum, for every
differentiation operator and every simplification function. -/
theorem riemann_code_eq_spec (n : ℕ) (d : ℕ → R → R) (simplify : R → R)
    (gam : ℕ → ℕ → ℕ → R) (rho lam mu nu : ℕ) :
    riemann_code n d simplify gam rho lam mu nu
      = riemann_spec n d simplify gam rho lam mu nu := by
  unfold riemann_code riemann_spec
  rw [foldl_add_range
    (fun sig => -(gam sig lam mu * gam rho sig nu) + gam sig lam nu * gam rho sig mu) n 0]
  rw [zero_add]
  congr 1
  rw [Finset.sum_congr rfl
    (fun sig _ => show
      -(gam sig lam mu * gam rho sig nu) + gam sig lam nu * gam rho sig mu
        = gam sig lam nu * gam rho sig mu - gam sig lam mu * gam rho sig nu by ring)]
  ring

/-- C7: for every symmetric input metric the computed Christoffel array is
symmetric in its last two indices, for every differentiation operator, every
inverse-metric array and every simplification function. -/
theorem christoffel_code_symm (n : ℕ) (d : ℕ → R → R) (simplify : R → R)
    (g invg : ℕ → ℕ → R) (hsym : ∀ i j, g i j = g j i) (rho lam nu : ℕ) :
    christoffel_code n d simplify g invg rho lam nu
      = christoffel_code n d simplify g invg rho nu lam := by
  rw [christoffel_code_eq_spec, christoffel_code_eq_spec]
  unfold christoffel_spec
  congr 1
  refine Finset.sum_congr rfl (fun mu _ => ?_)
  rw [hsym nu lam]
  ring

/-- C7 witness: a concrete symmetric metric instantiating
christoffel_code_symm. -/
theorem christoffel_code_symm_witness :
    christoffel_code 2 (fun _ x => x) id (fun _ _ => (1 : ℚ)) (fun _ _ => 1) 0 0 1
      = christoffel_code 2 (fun _ x => x) id (fun _ _ => (1 : ℚ)) (fun _ _ => 1) 0 1 0 :=
  christoffel_code_symm 2 (fun _ x => x) id (fun _ _ => (1 : ℚ)) (fun _ _ => 1)
    (fun _ _ => rfl) 0 0 1

/-- C8: the computed Riemann tensor is antisymmetric in its last two indices,
as an equality of symbolic values: simplify is semantically the identity in
the semantic field (the hypothesis hsimp), the Christoffel array and the
differentiation operator are arbitrary. -/
theorem riemann_code_antisymm (n : ℕ) (d : ℕ → R → R) (simplify : R → R)
    (gam : ℕ → ℕ → ℕ → R) (hsimp : ∀ y, simplify y = y) (rho lam mu nu : ℕ) :
    riemann_code n d simplify gam rho lam mu nu
      = -riemann_code n d simplify gam rho lam nu mu := by
  rw [riemann_code_eq_spec, riemann_code_eq_spec]
  unfold riemann_spec
  rw [hsimp, hsimp]
  rw [Finset.sum_congr rfl
    (fun sig _ => show
      gam sig lam mu * gam rho sig nu - gam sig lam nu * gam rho sig mu
        = -(gam sig lam nu * gam rho sig mu - gam sig lam mu * gam rho sig nu) by ring)]
  rw [Finset.sum_neg_distrib]
  ring

/-- C8 witness: a concrete Christoffel array instantiating
riemann_code_antisymm with simplify = id. -/
theorem riemann_code_antisymm_witness :
    riemann_code 2 (fun _ x => x) id (fun _ _ _ => (1 : ℚ)) 0 0 0 1
      = -riemann_code 2 (fun _ x => x) id (fun _ _ _ => (1 : ℚ)) 0 0 1 0 :=
  riemann_code_antisymm 2 (fun _ x => x) id (fun _ _ _ => (1 : ℚ))
    (fun _ => rfl) 0 0 0 1

end SymbolicTensors

section Construction

variable {R : Type} [Field R] [DecidableEq R]

/-- The exceptions construction can raise.  The Python code has no exception
classes of its own: the assert in ClassicalDifferentialGeometry.__init__
raises AssertionError, and sympy's Matrix.inv raises NonSquareMatrixError on
a non-square matrix and NonInvertibleMatrixError when it detects a zero
determinant.  The spec's taxonomy names the assert DimensionalityError and
the singular case SingularMetricError. -/
inductive PyErr where
  | assertionError (msg : String)
  | nonSquareMatrixError
  | nonInvertibleMatrixError
  deriving DecidableEq, Repr

/-- Laplace expansion along the first row, with the matrix size as structural
fuel: the semantic model of sympy's Matrix.det on a square matrix given as a
list of rows. -/
def detL : ℕ → List (List R) → R
  | 0, _ => 1
  | _ + 1, [] => 1
  | k + 1, row :: rest =>
      (List.range row.length).foldl
        (fun acc j =>
          acc + (-1) ^ j * row.getD j 0
            * detL k (rest.map fun r => r.take j ++ r.drop (j + 1)))
        0

/-- The minor of a list matrix: erase row i and column j. -/
def minorL (m : List (List R)) (i j : ℕ) : List (List R) :=
  (m.eraseIdx i).map fun r => r.eraseIdx j

/-- The inverse of a square list matrix via the adjugate formula: the
semantic model of sympy's Matrix.inv on a nonsingular matrix. -/
def invL (m : List (List R)) : List (List R) :=
  (List.range m.length).map fun i =>
    (List.range m.length).map fun j =>
      (-1) ^ (i + j) * detL (m.length - 1) (minorL m j i) / detL m.length m

/-- The state DifferentialGeometry.__init__ (lines 10-16) builds: metric,
inverse_metric, det, ndim and the coordinate variable list vars (variables
are opaque symbols, modelled as naturals; the parameterized s-dependent copies the
constructor also stores wrap the same list for the backend and play no role
in the claims). -/
structure DGState (R : Type) where
  metric : List (List R)
  inverse_metric : List (List R)
  det : R
  ndim : ℕ
  vars : List ℕ
  deriving DecidableEq

/-- Embedding of DifferentialGeometry.__init__ (lines 10-16).  The
constructor performs no validation of its own: Matrix(metric) accepts any
rectangular array, self.metric.inv() raises NonSquareMatrixError on a
non-square matrix and NonInvertibleMatrixError when the determinant is zero,
and nothing compares the matrix size with the number of supplied variables.
ndim is len(metric), the row count. -/
def DifferentialGeometry_init (m : List (List R)) (vs : List ℕ) :
    Except PyErr (DGState R) :=
  if m.all (fun row => row.length == m.length) then
    if detL m.length m = (0 : R) then .error .nonInvertibleMatrixError
    else .ok
      { metric := m
        inverse_metric := invL m
        det := detL m.length m
        ndim := m.length
        vars := vs }
  else .error .nonSquareMatrixError

/-- The message of the assert at line 23 of the source. -/
def classicalAssertMsg : String :=
  "Classical differential geometry is only defined for 2D surfaces"

/-- The state ClassicalDifferentialGeometry.__init__ (lines 19-24) builds:
the base state plus the eagerly computed Gaussian curvature. -/
structure CDGState (R : Type) where
  base : DGState R
  gaussian_curvature : R

/-- Embedding of ClassicalDifferentialGeometry.__init__ (lines 19-24): run
the base constructor, then assert ndim == 2, then compute the Gaussian
curvature eagerly from self.metric and self.det. -/
def ClassicalDifferentialGeometry_init (d : ℕ → R → R) (simplify : R → R)
    (m : List (List R)) (vars : List ℕ) : Except PyErr (CDGState R) :=
  match DifferentialGeometry_init m vars with
  | .error e => .error e
  | .ok st =>
      if st.ndim = 2 then
        .ok ⟨st, gaussian_code d simplify (fun i j => (st.metric.getD i []).getD j 0) st.det⟩
      else .error (.assertionError classicalAssertMsg)

/-- C4: constructing the eager 2D model from a rectangular nonsingular metric
whose dimension is not 2 fails (with the assert whose message names the
2D-only restriction, the spec's DimensionalityError) rather than silently
proceeding. -/
theorem classical_init_fails_on_non2d (d : ℕ → R → R) (simplify : R → R)
    (m : List (List R)) (vars : List ℕ)
    (hsq : m.all (fun row => row.length == m.length) = true)
    (hdet : detL m.length m ≠ (0 : R)) (hn : m.length ≠ 2) :
    ClassicalDifferentialGeometry_init d simplify m vars
      = .error (.assertionError classicalAssertMsg) := by
  unfold ClassicalDifferentialGeometry_init DifferentialGeometry_init
  rw [hsq]
  simp only [if_true, if_neg hdet]
  have hnd : (DGState.mk m (invL m) (detL m.length m) m.length vars).ndim ≠ 2 := hn
  simp [if_neg hnd]

/-- C4 witness: the 1-by-1 metric [[1]] is rejected by the assert. -/
theorem classical_init_fails_on_non2d_witness :
    ClassicalDifferentialGeometry_init (fun _ x => x) id [[(1 : ℚ)]] [0]
      = .error (.assertionError classicalAssertMsg) :=
  classical_init_fails_on_non2d (fun _ x => x) id [[(1 : ℚ)]] [0]
    (by decide) (by norm_num [detL, List.range_succ]) (by decide)

/-- C5: a rectangular metric whose determinant is (symbolically equal to)
zero fails construction: the inversion detects the zero determinant and
raises, which is the spec's SingularMetricError. -/
theorem init_fails_on_singular (m : List (List R)) (vars : List ℕ)
    (hsq : m.all (fun row => row.length == m.length) = true)
    (hdet : detL m.length m = (0 : R)) :
    DifferentialGeometry_init m vars = .error PyErr.nonInvertibleMatrixError := by
  unfold DifferentialGeometry_init
  rw [hsq]
  simp [hdet]

/-- C5 witness: the singular metric [[1,1],[1,1]] is rejected. -/
theorem init_fails_on_singular_witness :
    DifferentialGeometry_init [[(1 : ℚ), 1], [1, 1]] [0, 1]
      = .error PyErr.nonInvertibleMatrixError :=
  init_fails_on_singular [[(1 : ℚ), 1], [1, 1]] [0, 1] (by decide)
    (by norm_num [detL, List.range_succ])

/-- C6 counterexample: a square 2-by-2 identity metric supplied together with
three coordinate variables is accepted by the constructor with no error: no
DimensionMismatchError (or any other exception) compares the matrix size
with the variable count. -/
theorem init_accepts_mismatched_variable_count :
    (DifferentialGeometry_init [[(1 : ℚ), 0], [0, 1]] [0, 1, 2]).isOk = true := by
  have hdet : detL 2 [[(1 : ℚ), 0], [0, 1]] = 1 := by
    norm_num [detL, List.range_succ]
  unfold DifferentialGeometry_init
  norm_num [hdet]
  rfl

/-- C6 (amended): a non-square matrix does fail construction, via the
inversion's non-square check; but a square matrix whose size differs from
the variable count is accepted without error, so only the non-square half of
the claim holds. -/
theorem init_fails_on_nonsquare (m : List (List R)) (vars : List ℕ)
    (hsq : m.all (fun row => row.length == m.length) = false) :
    DifferentialGeometry_init m vars = .error PyErr.nonSquareMatrixError := by
  unfold DifferentialGeometry_init
  rw [hsq]
  rfl

/-- C6 witness: a 1-by-2 matrix is rejected as non-square. -/
theorem init_fails_on_nonsquare_witness :
    DifferentialGeometry_init [[(1 : ℚ), 0]] [0]
      = .error PyErr.nonSquareMatrixError :=
  init_fails_on_nonsquare [[(1 : ℚ), 0]] [0] (by decide)

end Construction

section Geodesics

variable {K : Type} [Field K] {S : Type}

/-- Drawing k successive values from the numpy global generator: next is the
model of np.random.random reading and advancing the global state. -/
def npDraws (next : S → K × S) : ℕ → S → List K × S
  | 0, st => ([], st)
  | k + 1, st =>
      let v := next st
      let rest := npDraws next k v.2
      (v.1 :: rest.1, rest.2)

/-- Model of np.linspace(a, b, k): k samples a + (b - a) * i / (k - 1),
endpoints included. -/
def linspace (a b : K) (k : ℕ) : List K :=
  (List.range k).map fun i : ℕ => a + (b - a) * (i : K) / ((k : K) - 1)

/-- Embedding of func (lines 167-171), the first-order reduction of the
geodesic system: the first n slots of the state derivative are the
velocities y[n..2n), the last n the accelerations.  accel i y is the
lambdified right-hand side of the geodesic equation for coordinate i (the
symbolic-to-numeric compilation is the backend collaborator, so accel is a
parameter); the curve parameter s is ignored, as in the source.  Out-of-range
reads return 0 (the Python code would raise; the solver contract only ever
supplies states of length 2n). -/
def geodesicRhs (n : ℕ) (accel : ℕ → List K → K) (y : List K) (_s : K) :
    List K :=
  ((List.range n).map fun i => y.getD (i + n) 0)
    ++ ((List.range n).map fun i => accel i y)

/-- Embedding of RiemannGeometry.solve_geodesic_equation (lines 153-177).
np.random.seed(seed) replaces the incoming global generator state rng with
seedFn seed; y0 is 2 * ndim successive draws; t is np.linspace(0, 10, 1000);
odeint is modelled at the scipy contract level as sampling an abstract
deterministic flow map solver (rhs, y0, time) at each requested time, one
output state per sample time.  The pair returned is (sol, final generator
state). -/
def solve_geodesic_equation (n : ℕ) (accel : ℕ → List K → K)
    (seedFn : ℕ → S) (next : S → K × S)
    (solver : (List K → K → List K) → List K → K → List K)
    (seed : ℕ) (_rng : S) : List (List K) × S :=
  let rng1 := seedFn seed
  let drawn := npDraws next (2 * n) rng1
  let t := linspace 0 10 1000
  (t.map (solver (geodesicRhs n accel) drawn.1), drawn.2)

omit [Field K] in
lemma npDraws_length (next : S → K × S) :
    ∀ (k : ℕ) (st : S), (npDraws next k st).1.length = k := by
  intro k
  induction k with
  | zero => intro st; rfl
  | succ j ih => intro st; simp [npDraws, ih]

/-- C9: geodesic integration is deterministic in the seed.  Whatever the
incoming global generator states of the two calls, the same seed produces
the same initial state (2 * n draws, each in [0,1) by the hypothesis hunif,
the contract of np.random.random) and the same sampled trajectory, because
np.random.seed(seed) overwrites the generator state before the draws. -/
theorem solve_geodesic_deterministic {K S : Type} [LinearOrderedField K]
    (n : ℕ) (accel : ℕ → List K → K) (seedFn : ℕ → S) (next : S → K × S)
    (solver : (List K → K → List K) → List K → K → List K)
    (seed : ℕ) (rngA rngB : S)
    (hunif : ∀ st : S, 0 ≤ (next st).1 ∧ (next st).1 < 1) :
    (solve_geodesic_equation n accel seedFn next solver seed rngA).1
        = (solve_geodesic_equation n accel seedFn next solver seed rngB).1
      ∧ (npDraws next (2 * n) (seedFn seed)).1.length = 2 * n
      ∧ ∀ v ∈ (npDraws next (2 * n) (seedFn seed)).1, 0 ≤ v ∧ v < 1 := by
  refine ⟨rfl, npDraws_length next (2 * n) (seedFn seed), ?_⟩
  generalize seedFn seed = st
  generalize 2 * n = k
  induction k generalizing st with
  | zero => intro v hv; cases hv
  | succ j ih =>
      intro v hv
      simp only [npDraws] at hv
      rcases List.mem_cons.mp hv with h | h
      · exact h ▸ hunif st
      · exact ih (next st).2 v h

/-- C9 witness: a concrete backend instantiating
solve_geodesic_deterministic. -/
theorem solve_geodesic_deterministic_witness :
    (solve_geodesic_equation 1 (fun _ _ => (0 : ℚ)) (fun _ => (0 : ℕ))
          (fun st => (1/2, st)) (fun _ y0 _ => y0) 7 0).1
        = (solve_geodesic_equation 1 (fun _ _ => (0 : ℚ)) (fun _ => (0 : ℕ))
          (fun st => (1/2, st)) (fun _ y0 _ => y0) 7 1).1
      ∧ (npDraws (fun st : ℕ => ((1 : ℚ)/2, st)) (2 * 1) 0).1.length = 2 * 1
      ∧ ∀ v ∈ (npDraws (fun st : ℕ => ((1 : ℚ)/2, st)) (2 * 1) 0).1,
          0 ≤ v ∧ v < 1 :=
  solve_geodesic_deterministic 1 (fun _ _ => (0 : ℚ)) (fun _ => (0 : ℕ))
    (fun st => (1/2, st)) (fun _ y0 _ => y0) 7 0 1
    (fun _ => ⟨by norm_num, by norm_num⟩)

set_option maxRecDepth 4000 in
/-- C10: the integration grid is hard-coded: the trajectory always has
exactly 1000 states, one per sample of np.linspace(0, 10, 1000); each state
has length 2 * n (by the scipy contract hsolver, one output row per sample
time with the width of y0); the i-th sample time is 10 * i / 999, so the
grid starts at 0, ends at 10 and has constant spacing 10 / 999.  No caller
input can change the range or the resolution: the function takes only the
seed (and the ambient generator state). -/
theorem solve_geodesic_grid {K S : Type} [Field K]
    (n : ℕ) (accel : ℕ → List K → K) (seedFn : ℕ → S) (next : S → K × S)
    (solver : (List K → K → List K) → List K → K → List K)
    (seed : ℕ) (rng : S)
    (hsolver : ∀ f y0 t, (solver f y0 t).length = y0.length)
    (h999 : ((999 : K)) ≠ 0) :
    (solve_geodesic_equation n accel seedFn next solver seed rng).1.length = 1000
      ∧ (∀ tr ∈ (solve_geodesic_equation n accel seedFn next solver seed rng).1,
          tr.length = 2 * n)
      ∧ (∀ i : ℕ, i < 1000 →
          (solve_geodesic_equation n accel seedFn next solver seed rng).1.getD i []
            = solver (geodesicRhs n accel) (npDraws next (2 * n) (seedFn seed)).1
                (10 * (i : K) / 999))
      ∧ (linspace (0 : K) 10 1000).getD 0 0 = 0
      ∧ (linspace (0 : K) 10 1000).getD 999 0 = 10
      ∧ (∀ i : ℕ, i < 999 →
          (linspace (0 : K) 10 1000).getD (i + 1) 0
              - (linspace (0 : K) 10 1000).getD i 0 = 10 / 999) := by
  have hval : ∀ (i : ℕ), i < 1000 →
      (linspace (0 : K) 10 1000)[i]? = some (10 * (i : K) / 999) := by
    intro i hi
    unfold linspace
    rw [List.getElem?_map, List.getElem?_range hi, Option.map_some']
    norm_num
  have hls : ∀ (i : ℕ), i < 1000 →
      (linspace (0 : K) 10 1000).getD i 0 = 10 * (i : K) / 999 := by
    intro i hi
    rw [List.getD_eq_getElem?_getD, hval i hi, Option.getD_some]
  have htraj : (solve_geodesic_equation n accel seedFn next solver seed rng).1
      = (linspace (0 : K) 10 1000).map
          (solver (geodesicRhs n accel) (npDraws next (2 * n) (seedFn seed)).1) := rfl
  refine ⟨?_, ?_, ?_, ?_, ?_, ?_⟩
  · rw [htraj, List.length_map]
    unfold linspace
    rw [List.length_map, List.length_range]
  · intro tr htr
    rw [htraj] at htr
    obtain ⟨t, _, rfl⟩ := List.mem_map.mp htr
    rw [hsolver, npDraws_length]
  · intro i hi
    rw [htraj, List.getD_eq_getElem?_getD, List.getElem?_map, hval i hi,
      Option.map_some', Option.getD_some]
  · rw [hls 0 (by norm_num)]; norm_num
  · rw [hls 999 (by norm_num)]
    rw [show ((999 : ℕ) : K) = (999 : K) by norm_num]
    field_simp
  · intro i hi
    rw [hls (i + 1) (by omega), hls i (by omega)]
    push_cast
    ring

/-- C10 witness: a concrete solver instantiating solve_geodesic_grid. -/
theorem solve_geodesic_grid_witness :
    (solve_geodesic_equation 1 (fun _ _ => (0 : ℚ)) (fun _ => (0 : ℕ))
          (fun st => (1/2, st)) (fun _ y0 _ => y0) 7 0).1.length = 1000
      ∧ (∀ tr ∈ (solve_geodesic_equation 1 (fun _ _ => (0 : ℚ)) (fun _ => (0 : ℕ))
            (fun st => (1/2, st)) (fun _ y0 _ => y0) 7 0).1,
          tr.length = 2 * 1)
      ∧ (∀ i : ℕ, i < 1000 →
          (solve_geodesic_equation 1 (fun _ _ => (0 : ℚ)) (fun _ => (0 : ℕ))
              (fun st => (1/2, st)) (fun _ y0 _ => y0) 7 0).1.getD i []
            = (fun (_ : List ℚ → ℚ → List ℚ) (y0 : List ℚ) (_ : ℚ) => y0)
                (geodesicRhs 1 (fun _ _ => (0 : ℚ)))
                (npDraws (fun st : ℕ => ((1 : ℚ)/2, st)) (2 * 1) 0).1
                (10 * (i : ℚ) / 999))
      ∧ (linspace (0 : ℚ) 10 1000).getD 0 0 = 0
      ∧ (linspace (0 : ℚ) 10 1000).getD 999 0 = 10
      ∧ (∀ i : ℕ, i < 999 →
          (linspace (0 : ℚ) 10 1000).getD (i + 1) 0
              - (linspace (0 : ℚ) 10 1000).getD i 0 = 10 / 999) :=
  solve_geodesic_grid 1 (fun _ _ => (0 : ℚ)) (fun _ => (0 : ℕ))
    (fun st => (1/2, st)) (fun _ y0 _ => y0) 7 0
    (fun _ _ _ => rfl) (by norm_num)

end Geodesics

section GaussianVsRicci

variable {R : Type} [Field R]

/-- From additivity, a derivation kills 0. -/
lemma dRule_zero (d : ℕ → R → R)
    (hadd : ∀ i x y, d i (x + y) = d i x + d i y) :
    ∀ i, d i 0 = 0 := by
  intro i
  have h := hadd i 0 0
  rw [add_zero] at h
  exact (self_eq_add_right.mp h)

/-- From the Leibniz rule, a derivation kills 1. -/
lemma dRule_one (d : ℕ → R → R)
    (hmul : ∀ i x y, d i (x * y) = d i x * y + x * d i y) :
    ∀ i, d i 1 = 0 := by
  intro i
  have h := hmul i 1 1
  rw [mul_one, one_mul, mul_one] at h
  exact (self_eq_add_right.mp h)

/-- A derivation kills the literal 2. -/
lemma dRule_two (d : ℕ → R → R)
    (hadd : ∀ i x y, d i (x + y) = d i x + d i y)
    (hmul : ∀ i x y, d i (x * y) = d i x * y + x * d i y) :
    ∀ i, d i 2 = 0 := by
  intro i
  rw [show (2 : R) = 1 + 1 by norm_num, hadd, dRule_one d hmul, add_zero]

/-- A derivation commutes with negation. -/
lemma dRule_neg (d : ℕ → R → R)
    (hadd : ∀ i x y, d i (x + y) = d i x + d i y) :
    ∀ i x, d i (-x) = -(d i x) := by
  intro i x
  have h := hadd i x (-x)
  rw [add_neg_cancel, dRule_zero d hadd] at h
  linear_combination -h

/-- A derivation commutes with subtraction. -/
lemma dRule_sub (d : ℕ → R → R)
    (hadd : ∀ i x y, d i (x + y) = d i x + d i y) :
    ∀ i x y, d i (x - y) = d i x - d i y := by
  intro i x y
  rw [sub_eq_add_neg, hadd, dRule_neg d hadd, sub_eq_add_neg]

/-- The quotient rule for the multiplicative inverse, derived from the
Leibniz rule. -/
lemma dRule_inv (d : ℕ → R → R)
    (hmul : ∀ i x y, d i (x * y) = d i x * y + x * d i y)
    (i : ℕ) (y : R) (hy : y ≠ 0) : d i y⁻¹ = -(d i y) / y ^ 2 := by
  have h2 := hmul i y y⁻¹
  rw [mul_inv_cancel₀ hy, dRule_one d hmul] at h2
  have h3 : d i y * y⁻¹ + y * d i y⁻¹ = 0 := h2.symm
  have h5 : d i y * (y⁻¹ * y) + y * d i y⁻¹ * y = 0 := by
    calc d i y * (y⁻¹ * y) + y * d i y⁻¹ * y
        = (d i y * y⁻¹ + y * d i y⁻¹) * y := by ring
      _ = 0 * y := by rw [h3]
      _ = 0 := zero_mul y
  rw [inv_mul_cancel₀ hy, mul_one] at h5
  rw [eq_div_iff (pow_ne_zero 2 hy)]
  linear_combination h5

/-- The quotient rule, derived from Leibniz. -/
lemma dRule_div (d : ℕ → R → R)
    (hmul : ∀ i x y, d i (x * y) = d i x * y + x * d i y)
    (i : ℕ) (x y : R) (hy : y ≠ 0) :
    d i (x / y) = (d i x * y - x * d i y) / y ^ 2 := by
  rw [div_eq_mul_inv, hmul, dRule_inv d hmul i y hy]
  field_simp
  ring

/-- A symmetric 2-by-2 metric with entries A = g00, B = g01 = g10,
C = g11, as the index function the tensor code reads. -/
def g2 (A B C : R) : ℕ → ℕ → R := fun i j =>
  if i = 0 then (if j = 0 then A else B) else (if j = 0 then B else C)

/-- The determinant of a 2-by-2 symbolic matrix, as Matrix.det produces
it. -/
def det2 (g : ℕ → ℕ → R) : R := g 0 0 * g 1 1 - g 0 1 * g 1 0

/-- The inverse of a nonsingular 2-by-2 symbolic matrix, adjugate over
determinant, as Matrix.inv produces it. -/
def inv2 (g : ℕ → ℕ → R) : ℕ → ℕ → R := fun i j =>
  if i = 0 then
    (if j = 0 then g 1 1 / det2 g else -(g 0 1) / det2 g)
  else
    (if j = 0 then -(g 1 0) / det2 g else g 0 0 / det2 g)

/-- The Ricci scalar of a 2-by-2 metric through the code's full generic
pipeline (Christoffel, then Riemann, then Ricci, then the scalar), in the
semantic model where simplify is the identity. -/
def ricciScalar2 (d : ℕ → R → R) (A B C : R) : R :=
  ricciScalar_code 2 id (inv2 (g2 A B C))
    (ricci_code 2 id
      (riemann_code 2 d id
        (christoffel_code 2 d id (g2 A B C) (inv2 (g2 A B C)))))

end GaussianVsRicci

section GaussianRicciEquivalence

variable {R : Type} [Field R]

set_option maxHeartbeats 1600000 in
/-- C3: for every symmetric nonsingular 2-dimensional metric, the Gaussian
curvature that ClassicalDifferentialGeometry computes through the Brioschi
closed form is symbolically equal to RicciScalar / 2, where the Ricci scalar
comes independently from RiemannGeometry's generic
Christoffel/Riemann/Ricci pipeline on the same metric.  The hypotheses state
the backend's calculus: d i is additive, satisfies the Leibniz rule, mixed
second derivatives commute, the expression field has characteristic not 2,
and the metric determinant is nonzero; simplify is semantically the identity
(equality in R is symbolic equivalence). -/
theorem gaussian_code_eq_half_ricciScalar (d : ℕ → R → R) (A B C : R)
    (hadd : ∀ i x y, d i (x + y) = d i x + d i y)
    (hmul : ∀ i x y, d i (x * y) = d i x * y + x * d i y)
    (hcomm : ∀ z, d 1 (d 0 z) = d 0 (d 1 z))
    (h2 : (2 : R) ≠ 0)
    (hdet : det2 (g2 A B C) ≠ 0) :
    gaussian_code d id (g2 A B C) (det2 (g2 A B C)) = ricciScalar2 d A B C / 2 := by
  have hdet2 : det2 (g2 A B C) = A * C - B * B := by norm_num [det2, g2]
  have hΔ : A * C - B * B ≠ 0 := by rwa [hdet2] at hdet
  have h2Δ : 2 * (A * C - B * B) ≠ 0 := mul_ne_zero h2 hΔ
  have hzero := dRule_zero d hadd
  have htwo := dRule_two d hadd hmul
  have hneg := dRule_neg d hadd
  have hsub := dRule_sub d hadd
  have hr2 : List.range 2 = [0, 1] := rfl
  set u := (2 * (A * C - B * B))⁻¹ with hu_def
  have hu : 2 * (A * C - B * B) * u = 1 := by rw [hu_def]; exact mul_inv_cancel₀ h2Δ
  have hdu : ∀ i, d i u = -(d i (2 * (A * C - B * B))) * u ^ 2 := by
    intro i
    rw [hu_def, dRule_inv d hmul i _ h2Δ, div_eq_mul_inv, ← inv_pow]
  have hdivu : ∀ x : R, x / (2 * (A * C - B * B)) = x * u := by
    intro x; rw [hu_def, ← div_eq_mul_inv]
  have hdivu2 : ∀ x : R, x / (4 * (A * C - B * B) ^ 2) = x * u ^ 2 := by
    intro x
    rw [hu_def, inv_pow, ← div_eq_mul_inv]
    congr 1
    ring
  have hΔinv : (A * C - B * B)⁻¹ = 2 * u := by
    rw [hu_def, mul_inv, ← mul_assoc, mul_inv_cancel₀ h2, one_mul]
  have hc000 : christoffel_code 2 d id (g2 A B C) (inv2 (g2 A B C)) 0 0 0
      = (C * d 0 A - B * (2 * d 0 B - d 1 A)) * u := by
    rw [← hdivu]
    simp [christoffel_code, hr2, g2, inv2, det2]
    field_simp
    ring
  have hc001 : christoffel_code 2 d id (g2 A B C) (inv2 (g2 A B C)) 0 0 1
      = (C * d 1 A - B * d 0 C) * u := by
    rw [← hdivu]
    simp [christoffel_code, hr2, g2, inv2, det2]
    field_simp
    ring
  have hc010 : christoffel_code 2 d id (g2 A B C) (inv2 (g2 A B C)) 0 1 0
      = (C * d 1 A - B * d 0 C) * u := by
    rw [← hdivu]
    simp [christoffel_code, hr2, g2, inv2, det2]
    field_simp
    ring
  have hc011 : christoffel_code 2 d id (g2 A B C) (inv2 (g2 A B C)) 0 1 1
      = (C * (2 * d 1 B - d 0 C) - B * d 1 C) * u := by
    rw [← hdivu]
    simp [christoffel_code, hr2, g2, inv2, det2]
    field_simp
    ring
  have hc100 : christoffel_code 2 d id (g2 A B C) (inv2 (g2 A B C)) 1 0 0
      = (A * (2 * d 0 B - d 1 A) - B * d 0 A) * u := by
    rw [← hdivu]
    simp [christoffel_code, hr2, g2, inv2, det2]
    field_simp
    ring
  have hc101 : christoffel_code 2 d id (g2 A B C) (inv2 (g2 A B C)) 1 0 1
      = (A * d 0 C - B * d 1 A) * u := by
    rw [← hdivu]
    simp [christoffel_code, hr2, g2, inv2, det2]
    field_simp
    ring
  have hc110 : christoffel_code 2 d id (g2 A B C) (inv2 (g2 A B C)) 1 1 0
      = (A * d 0 C - B * d 1 A) * u := by
    rw [← hdivu]
    simp [christoffel_code, hr2, g2, inv2, det2]
    field_simp
    ring
  have hc111 : christoffel_code 2 d id (g2 A B C) (inv2 (g2 A B C)) 1 1 1
      = (A * d 1 C - B * (2 * d 1 B - d 0 C)) * u := by
    rw [← hdivu]
    simp [christoffel_code, hr2, g2, inv2, det2]
    field_simp
    ring
  have hR1010 : riemann_code 2 d id
      (christoffel_code 2 d id (g2 A B C) (inv2 (g2 A B C))) 1 0 1 0
      = A ^ 2 * (d 1 A) * (d 1 C) * u ^ 2 - 2 * A ^ 2 * (d 0 B) * (d 1 C) * u ^ 2 + A ^ 2 * (d 0 C) ^ 2 * u ^ 2 + A * B * (d 0 A) * (d 1 C) * u ^ 2 - 2 * A * B * (d 1 A) * (d 1 B) * u ^ 2 - A * B * (d 1 A) * (d 0 C) * u ^ 2 + 4 * A * B * (d 0 B) * (d 1 B) * u ^ 2 - 2 * A * B * (d 0 B) * (d 0 C) * u ^ 2 + 3 * A * C * (d 0 A) * (d 0 C) * u ^ 2 + 3 * A * C * (d 1 A) ^ 2 * u ^ 2 - 6 * A * C * (d 1 A) * (d 0 B) * u ^ 2 - 2 * B ^ 2 * (d 0 A) * (d 1 B) * u ^ 2 - 2 * B ^ 2 * (d 0 A) * (d 0 C) * u ^ 2 - 2 * B ^ 2 * (d 1 A) ^ 2 * u ^ 2 + 6 * B ^ 2 * (d 1 A) * (d 0 B) * u ^ 2 - A * (d 1 (d 1 A)) * u + 2 * A * (d 0 (d 1 B)) * u - A * (d 0 (d 0 C)) * u - (d 0 A) * (d 1 B) * u - (d 0 A) * (d 0 C) * u - (d 1 A) ^ 2 * u + 3 * (d 1 A) * (d 0 B) * u := by
    simp only [riemann_code, hr2, List.foldl_cons, List.foldl_nil, id_eq]
    simp only [hc000, hc001, hc010, hc011, hc100, hc101, hc110, hc111]
    simp only [hdu, hadd, hsub, hneg, hmul, htwo, hzero, hcomm, zero_mul,
      mul_zero, zero_add, add_zero]
    ring
  have hR0001 : riemann_code 2 d id
      (christoffel_code 2 d id (g2 A B C) (inv2 (g2 A B C))) 0 0 0 1
      = A * B * (d 1 A) * (d 1 C) * u ^ 2 - 2 * A * B * (d 0 B) * (d 1 C) * u ^ 2 + A * B * (d 0 C) ^ 2 * u ^ 2 + 2 * A * C * (d 0 A) * (d 1 C) * u ^ 2 + 2 * A * C * (d 1 A) * (d 1 B) * u ^ 2 - 2 * A * C * (d 1 A) * (d 0 C) * u ^ 2 - 4 * A * C * (d 0 B) * (d 1 B) * u ^ 2 + 2 * A * C * (d 0 B) * (d 0 C) * u ^ 2 - B ^ 2 * (d 0 A) * (d 1 C) * u ^ 2 - 4 * B ^ 2 * (d 1 A) * (d 1 B) * u ^ 2 + B ^ 2 * (d 1 A) * (d 0 C) * u ^ 2 + 8 * B ^ 2 * (d 0 B) * (d 1 B) * u ^ 2 - 4 * B ^ 2 * (d 0 B) * (d 0 C) * u ^ 2 - 2 * B * C * (d 0 A) * (d 1 B) * u ^ 2 + B * C * (d 0 A) * (d 0 C) * u ^ 2 + B * C * (d 1 A) ^ 2 * u ^ 2 - B * (d 1 (d 1 A)) * u + 2 * B * (d 0 (d 1 B)) * u - B * (d 0 (d 0 C)) * u - (d 0 A) * (d 1 C) * u - (d 1 A) * (d 1 B) * u + (d 1 A) * (d 0 C) * u + 2 * (d 0 B) * (d 1 B) * u - (d 0 B) * (d 0 C) * u := by
    simp only [riemann_code, hr2, List.foldl_cons, List.foldl_nil, id_eq]
    simp only [hc000, hc001, hc010, hc011, hc100, hc101, hc110, hc111]
    simp only [hdu, hadd, hsub, hneg, hmul, htwo, hzero, hcomm, zero_mul,
      mul_zero, zero_add, add_zero]
    ring
  have hR1110 : riemann_code 2 d id
      (christoffel_code 2 d id (g2 A B C) (inv2 (g2 A B C))) 1 1 1 0
      = A * B * (d 1 A) * (d 1 C) * u ^ 2 - 2 * A * B * (d 0 B) * (d 1 C) * u ^ 2 + A * B * (d 0 C) ^ 2 * u ^ 2 + 2 * A * C * (d 0 A) * (d 1 C) * u ^ 2 + 2 * A * C * (d 1 A) * (d 1 B) * u ^ 2 - 2 * A * C * (d 1 A) * (d 0 C) * u ^ 2 - 4 * A * C * (d 0 B) * (d 1 B) * u ^ 2 + 2 * A * C * (d 0 B) * (d 0 C) * u ^ 2 - B ^ 2 * (d 0 A) * (d 1 C) * u ^ 2 - 4 * B ^ 2 * (d 1 A) * (d 1 B) * u ^ 2 + B ^ 2 * (d 1 A) * (d 0 C) * u ^ 2 + 8 * B ^ 2 * (d 0 B) * (d 1 B) * u ^ 2 - 4 * B ^ 2 * (d 0 B) * (d 0 C) * u ^ 2 - 2 * B * C * (d 0 A) * (d 1 B) * u ^ 2 + B * C * (d 0 A) * (d 0 C) * u ^ 2 + B * C * (d 1 A) ^ 2 * u ^ 2 - B * (d 1 (d 1 A)) * u + 2 * B * (d 0 (d 1 B)) * u - B * (d 0 (d 0 C)) * u - (d 0 A) * (d 1 C) * u - (d 1 A) * (d 1 B) * u + (d 1 A) * (d 0 C) * u + 2 * (d 0 B) * (d 1 B) * u - (d 0 B) * (d 0 C) * u := by
    simp only [riemann_code, hr2, List.foldl_cons, List.foldl_nil, id_eq]
    simp only [hc000, hc001, hc010, hc011, hc100, hc101, hc110, hc111]
    simp only [hdu, hadd, hsub, hneg, hmul, htwo, hzero, hcomm, zero_mul,
      mul_zero, zero_add, add_zero]
    ring
  have hR0101 : riemann_code 2 d id
      (christoffel_code 2 d id (g2 A B C) (inv2 (g2 A B C))) 0 1 0 1
      = 3 * A * C * (d 1 A) * (d 1 C) * u ^ 2 - 6 * A * C * (d 1 B) * (d 0 C) * u ^ 2 + 3 * A * C * (d 0 C) ^ 2 * u ^ 2 - 2 * B ^ 2 * (d 1 A) * (d 1 C) * u ^ 2 - 2 * B ^ 2 * (d 0 B) * (d 1 C) * u ^ 2 + 6 * B ^ 2 * (d 1 B) * (d 0 C) * u ^ 2 - 2 * B ^ 2 * (d 0 C) ^ 2 * u ^ 2 + B * C * (d 0 A) * (d 1 C) * u ^ 2 - 2 * B * C * (d 1 A) * (d 1 B) * u ^ 2 - B * C * (d 1 A) * (d 0 C) * u ^ 2 + 4 * B * C * (d 0 B) * (d 1 B) * u ^ 2 - 2 * B * C * (d 0 B) * (d 0 C) * u ^ 2 - 2 * C ^ 2 * (d 0 A) * (d 1 B) * u ^ 2 + C ^ 2 * (d 0 A) * (d 0 C) * u ^ 2 + C ^ 2 * (d 1 A) ^ 2 * u ^ 2 - C * (d 1 (d 1 A)) * u + 2 * C * (d 0 (d 1 B)) * u - C * (d 0 (d 0 C)) * u - (d 1 A) * (d 1 C) * u - (d 0 B) * (d 1 C) * u + 3 * (d 1 B) * (d 0 C) * u - (d 0 C) ^ 2 * u := by
    simp only [riemann_code, hr2, List.foldl_cons, List.foldl_nil, id_eq]
    simp only [hc000, hc001, hc010, hc011, hc100, hc101, hc110, hc111]
    simp only [hdu, hadd, hsub, hneg, hmul, htwo, hzero, hcomm, zero_mul,
      mul_zero, zero_add, add_zero]
    ring
  have hR0000 : riemann_code 2 d id
      (christoffel_code 2 d id (g2 A B C) (inv2 (g2 A B C))) 0 0 0 0 = 0 := by
    simp only [riemann_code, hr2, List.foldl_cons, List.foldl_nil, id_eq]
    ring
  have hR1011 : riemann_code 2 d id
      (christoffel_code 2 d id (g2 A B C) (inv2 (g2 A B C))) 1 0 1 1 = 0 := by
    simp only [riemann_code, hr2, List.foldl_cons, List.foldl_nil, id_eq]
    ring
  have hR0100 : riemann_code 2 d id
      (christoffel_code 2 d id (g2 A B C) (inv2 (g2 A B C))) 0 1 0 0 = 0 := by
    simp only [riemann_code, hr2, List.foldl_cons, List.foldl_nil, id_eq]
    ring
  have hR1111 : riemann_code 2 d id
      (christoffel_code 2 d id (g2 A B C) (inv2 (g2 A B C))) 1 1 1 1 = 0 := by
    simp only [riemann_code, hr2, List.foldl_cons, List.foldl_nil, id_eq]
    ring
  have hi00 : inv2 (g2 A B C) 0 0 = 2 * C * u := by
    simp only [inv2, det2, g2]
    norm_num
    rw [div_eq_mul_inv, hΔinv]
    ring
  have hi01 : inv2 (g2 A B C) 0 1 = -(2 * B * u) := by
    simp only [inv2, det2, g2]
    norm_num
    rw [div_eq_mul_inv, hΔinv]
    ring
  have hi10 : inv2 (g2 A B C) 1 0 = -(2 * B * u) := by
    simp only [inv2, det2, g2]
    norm_num
    rw [div_eq_mul_inv, hΔinv]
    ring
  have hi11 : inv2 (g2 A B C) 1 1 = 2 * A * u := by
    simp only [inv2, det2, g2]
    norm_num
    rw [div_eq_mul_inv, hΔinv]
    ring
  rw [eq_div_iff h2]
  unfold ricciScalar2 ricciScalar_code ricci_code
  simp only [hr2, List.foldl_cons, List.foldl_nil, id_eq]
  simp only [hR0000, hR1010, hR0001, hR1011, hR0100, hR1110, hR0101, hR1111]
  simp only [hi00, hi01, hi10, hi11]
  unfold gaussian_code
  simp only [id_eq, hdet2]
  norm_num [g2]
  simp only [hdivu, hdivu2, hcomm]
  linear_combination (-4 * A * (d 1 A) * (d 1 C) * u ^ 2 + 2 * A * (d 0 B) * (d 1 C) * u ^ 2 + 6 * A * (d 1 B) * (d 0 C) * u ^ 2 - 4 * A * (d 0 C) ^ 2 * u ^ 2 + 2 * B * (d 0 A) * (d 1 C) * u ^ 2 + 8 * B * (d 1 A) * (d 1 B) * u ^ 2 - 2 * B * (d 1 A) * (d 0 C) * u ^ 2 - 16 * B * (d 0 B) * (d 1 B) * u ^ 2 + 8 * B * (d 0 B) * (d 0 C) * u ^ 2 + 2 * C * (d 0 A) * (d 1 B) * u ^ 2 - 4 * C * (d 0 A) * (d 0 C) * u ^ 2 - 4 * C * (d 1 A) ^ 2 * u ^ 2 + 6 * C * (d 1 A) * (d 0 B) * u ^ 2 + 2 * (d 1 (d 1 A)) * u - 4 * (d 0 (d 1 B)) * u + 2 * (d 0 (d 0 C)) * u) * hu

/-- C3 witness: the constant flat metric diag(2, 1) with the zero
differentiation operator instantiates gaussian_code_eq_half_ricciScalar. -/
theorem gaussian_code_eq_half_ricciScalar_witness :
    gaussian_code (fun _ _ => (0 : ℚ)) id (g2 2 0 1) (det2 (g2 2 0 1))
      = ricciScalar2 (fun _ _ => (0 : ℚ)) 2 0 1 / 2 :=
  gaussian_code_eq_half_ricciScalar (fun _ _ => 0) 2 0 1
    (fun _ _ _ => by norm_num) (fun _ _ _ => by norm_num) (fun _ => rfl)
    (by norm_num) (by norm_num [det2, g2])

end GaussianRicciEquivalence
